import Mathlib

/-!
Verification of the affection / memory / knowledge subsystems of the
`ai_girlfriend_bot` repository, as a shallow embedding in Lean 4.

Modelling conventions
- Python `float` scores are embedded as `ℚ` (the properties checked here are
  clamping, signs and exact table arithmetic, none of which depend on binary
  rounding).
- `datetime` values are embedded as `ℤ` timestamps counted in seconds; a
  `timedelta.days` field is `(b - a).fdiv 86400` (Python floors), and
  `datetime.hour` is modelled as `(t.fdiv 3600) % 24`.
- Python dictionaries keyed by user id are embedded as functions
  `String → Option _`.
- Python objects are references: a local variable bound to a dict entry sees
  every later in-place mutation of that entry.  The embedding therefore
  threads the updated record explicitly and reads it again wherever the
  Python code re-reads the attribute of an aliased object.
- Disk persistence (`_save_states`) is a no-op for the state itself (errors
  are swallowed in the source), so it is not modelled.
-/

/-- `starts_with needle hay` is true iff `needle` is a leading run of `hay`. -/
def starts_with : List Char → List Char → Bool
  | [], _ => true
  | _ :: _, [] => false
  | a :: as, b :: bs => a == b && starts_with as bs

/-- `has_sub needle hay` is true iff `needle` occurs contiguously in `hay`;
this is Python's `needle in hay` on strings. -/
def has_sub (needle : List Char) : List Char → Bool
  | [] => needle.isEmpty
  | c :: rest => starts_with needle (c :: rest) || has_sub needle rest

/-- Python `word in message` for strings. -/
def py_in (word message : String) : Bool :=
  has_sub word.data message.data

/-- Python `str.lower()`.  The keyword tables below only contain ASCII
letters and Japanese characters, for which `Char.toLower` agrees with
Python's lowering. -/
def py_lower (s : String) : String :=
  ⟨s.data.map Char.toLower⟩

/-- Python `timedelta.days` for `b - a` expressed in seconds: floor division. -/
def days_between (a b : ℤ) : ℤ := (b - a).fdiv 86400

/-- Python `datetime.hour` of a timestamp in seconds. -/
def py_hour (t : ℤ) : ℤ := (t.fdiv 3600) % 24

/-- The `context` dictionary passed to `AffectionCalculator.calculate_change`:
`context.get(key, 0)` is modelled by a structure whose fields default to 0. -/
structure Ctx where
  consecutive_positive : ℤ := 0
  consecutive_negative : ℤ := 0
  days_inactive : ℤ := 0
deriving Repr, DecidableEq

namespace AffectionCalculator

/-- `AffectionCalculator.BASE_MESSAGE` (never read by `calculate_change`). -/
def BASE_MESSAGE : ℚ := 0.1

/-- `AffectionCalculator.POSITIVE_FACTORS` (a Python dict; embedded as an
association list with the source's key order). -/
def POSITIVE_FACTORS : List (String × ℚ) :=
  [("compliment", 2.0),
   ("gift", 5.0),
   ("remember_detail", 3.0),
   ("share_feeling", 1.5),
   ("ask_about_day", 1.0),
   ("good_morning_night", 1.5),
   ("initiate_conversation", 1.0),
   ("quick_response", 0.5),
   ("long_conversation", 2.0),
   ("use_nickname", 1.0),
   ("apologize", 2.0),
   ("keep_promise", 3.0)]

/-- `AffectionCalculator.NEGATIVE_FACTORS`. -/
def NEGATIVE_FACTORS : List (String × ℚ) :=
  [("ignore", -3.0),
   ("forget_important", -4.0),
   ("mention_other_girl", -5.0),
   ("rude", -5.0),
   ("lie", -8.0),
   ("break_promise", -6.0),
   ("late_response_hours", -0.5),
   ("one_word_reply", -0.5),
   ("insult", -10.0),
   ("pressure", -3.0)]

def DECAY_RATE : ℚ := 0.3

def DECAY_THRESHOLD_DAYS : ℤ := 2

/-- `AffectionCalculator.calculate_change`, translated statement by
statement: the running `change` variable, the two damping tiers for
positive actions, the two 1.3 amplifiers for negative actions, the decay
formula, and the final clamp to `[0,100]` whose difference from
`current_score` is returned. -/
def calculate_change (action : String) (current_score : ℚ) (context : Ctx) : ℚ :=
  let change : ℚ :=
    match POSITIVE_FACTORS.lookup action with
    | some v =>
        let c := v
        let c := if current_score > 80 then c * 0.7
                 else if current_score > 60 then c * 0.85
                 else c
        if context.consecutive_positive > 3 then c * 1.2 else c
    | none =>
      match NEGATIVE_FACTORS.lookup action with
      | some v =>
          let c := v
          let c := if current_score < 30 then c * 1.3 else c
          if context.consecutive_negative > 2 then c * 1.3 else c
      | none =>
        if action = "decay" then
          if context.days_inactive ≥ DECAY_THRESHOLD_DAYS then
            -DECAY_RATE * ((context.days_inactive : ℚ) - (DECAY_THRESHOLD_DAYS : ℚ) + 1)
          else 0
        else 0
  let new_score := max 0 (min 100 (current_score + change))
  new_score - current_score

/-- The positive keyword list of `analyze_message_sentiment`. -/
def positive_words : List String :=
  ["綺麗", "可愛い", "賢い", "優しい", "親切", "好き", "愛", "想", "良い",
   "素晴らしい", "優秀", "すごい", "ありがとう", "感謝", "嬉しい", "幸せ", "素敵",
   "miss", "love", "like", "beautiful", "cute", "smart", "thanks",
   "happy", "glad", "wonderful", "amazing", "great", "good"]

/-- The negative keyword list of `analyze_message_sentiment`. -/
def negative_words : List String :=
  ["醜い", "バカ", "馬鹿", "嫌い", "憎い", "出て行け", "うるさい", "悪い", "ダメ",
   "愚か", "つまらない", "気持ち悪い", "失望", "怒り", "憤り", "悲しい",
   "hate", "stupid", "ugly", "boring", "annoying", "bad",
   "terrible", "awful", "disappointed", "angry"]

/-- The special trigger word list of `analyze_message_sentiment`. -/
def other_girl_words : List String :=
  ["他の女の子", "別の女の子", "彼女", "元カノ", "ex", "other girl"]

/-- Number of positive keywords occurring in the lowercased message. -/
def positive_count (message : String) : ℕ :=
  positive_words.countP (fun w => py_in w (py_lower message))

/-- Number of negative keywords occurring in the lowercased message. -/
def negative_count (message : String) : ℕ :=
  negative_words.countP (fun w => py_in w (py_lower message))

/-- Number of "other girl" trigger words occurring in the lowercased message. -/
def other_girl_count (message : String) : ℕ :=
  other_girl_words.countP (fun w => py_in w (py_lower message))

/-- `AffectionCalculator.analyze_message_sentiment`: lowercases the message,
counts keyword hits, gives absolute priority to the "other girl" trigger,
otherwise decides by majority, with ties yielding a neutral no-op. -/
def analyze_message_sentiment (message : String) : String × ℚ :=
  if other_girl_count message > 0 then
    ("mention_other_girl", -5.0)
  else if positive_count message > negative_count message then
    ("compliment", min 2.0 ((positive_count message : ℚ) * 0.5))
  else if negative_count message > positive_count message then
    ("rude", max (-5.0) (-(negative_count message : ℚ) * 1.0))
  else
    ("neutral", 0.0)

end AffectionCalculator

/-- Clamping to `[0,100]`, as performed by the source's
`max(0, min(100, x))`. -/
def clamp01 (x : ℚ) : ℚ := max 0 (min 100 x)

/-- The raw (pre-clamp) delta as described by the specification: the table
value for the action adjusted by the damping factors, the decay formula for
the literal action `"decay"`, and 0 for unknown actions.  This definition
follows the wording of the spec; the claim compares it against the
source-translated `calculate_change`. -/
def rawDeltaSpec (action : String) (current_score : ℚ) (context : Ctx) : ℚ :=
  match AffectionCalculator.POSITIVE_FACTORS.lookup action with
  | some v =>
      (if current_score > 80 then v * 0.7
       else if current_score > 60 then v * 0.85
       else v) *
        (if context.consecutive_positive > 3 then 1.2 else 1)
  | none =>
    match AffectionCalculator.NEGATIVE_FACTORS.lookup action with
    | some v =>
        (if current_score < 30 then v * 1.3 else v) *
          (if context.consecutive_negative > 2 then 1.3 else 1)
    | none =>
      if action = "decay" then
        if context.days_inactive ≥ AffectionCalculator.DECAY_THRESHOLD_DAYS then
          -AffectionCalculator.DECAY_RATE *
            ((context.days_inactive : ℚ) - (AffectionCalculator.DECAY_THRESHOLD_DAYS : ℚ) + 1)
        else 0
      else 0

theorem clamp01_nonneg (x : ℚ) : 0 ≤ clamp01 x := le_max_left 0 _

theorem clamp01_le_100 (x : ℚ) : clamp01 x ≤ 100 :=
  max_le (by norm_num) (min_le_left _ _)

theorem clamp01_of_mem {x : ℚ} (h0 : 0 ≤ x) (h1 : x ≤ 100) : clamp01 x = x := by
  unfold clamp01
  rw [min_eq_right h1, max_eq_right h0]

set_option maxHeartbeats 1000000 in
/-- The source-translated `calculate_change` agrees with the spec's
post-clamp contract, with `rawDeltaSpec` as the raw delta. -/
theorem calculate_change_eq_clamp (action : String) (current_score : ℚ) (context : Ctx) :
    AffectionCalculator.calculate_change action current_score context =
      clamp01 (current_score + rawDeltaSpec action current_score context) - current_score := by
  unfold AffectionCalculator.calculate_change rawDeltaSpec clamp01
  cases hp : AffectionCalculator.POSITIVE_FACTORS.lookup action with
  | some v => split_ifs <;> ring_nf
  | none =>
    cases hn : AffectionCalculator.NEGATIVE_FACTORS.lookup action with
    | some v => split_ifs <;> ring_nf
    | none => split_ifs <;> ring_nf

/-- C2: for every action string, every current score in `[0,100]` and every
context, `AffectionCalculator.calculate_change` returns the post-clamp
delta: its value is `clamp(currentScore + rawDelta, 0, 100) - currentScore`
where `rawDelta` is the table value adjusted by the damping factors, the
decay formula for `"decay"`, and 0 for unknown actions. -/
theorem claim_C2_calculate_change_postclamp
    (action : String) (current_score : ℚ) (context : Ctx)
    (h0 : 0 ≤ current_score) (h1 : current_score ≤ 100) :
    AffectionCalculator.calculate_change action current_score context =
      clamp01 (current_score + rawDeltaSpec action current_score context) - current_score :=
  calculate_change_eq_clamp action current_score context

theorem claim_C2_witness :
    (0:ℚ) ≤ 20 ∧ (20:ℚ) ≤ 100 ∧
    AffectionCalculator.calculate_change "gift" 20 {} =
      clamp01 (20 + rawDeltaSpec "gift" 20 {}) - 20 :=
  ⟨by norm_num, by norm_num,
    claim_C2_calculate_change_postclamp "gift" 20 {} (by norm_num) (by norm_num)⟩

/-- C7: `analyze_message_sentiment` gives absolute priority to the
"other person" keyword set; otherwise a strict majority of negative matches
returns a negative action with magnitude at most the 5.0 cap; equal counts
(and hence no matches) return the neutral no-op action with magnitude 0. -/
theorem claim_C7_sentiment_priority (message : String) :
    (0 < AffectionCalculator.other_girl_count message →
      AffectionCalculator.analyze_message_sentiment message = ("mention_other_girl", -5.0)) ∧
    (AffectionCalculator.other_girl_count message = 0 →
      AffectionCalculator.positive_count message < AffectionCalculator.negative_count message →
      (AffectionCalculator.analyze_message_sentiment message).1 = "rude" ∧
      (AffectionCalculator.analyze_message_sentiment message).2 < 0 ∧
      |(AffectionCalculator.analyze_message_sentiment message).2| ≤ 5) ∧
    (AffectionCalculator.other_girl_count message = 0 →
      AffectionCalculator.positive_count message = AffectionCalculator.negative_count message →
      AffectionCalculator.analyze_message_sentiment message = ("neutral", 0.0)) := by
  unfold AffectionCalculator.analyze_message_sentiment
  refine ⟨fun h => ?_, fun h0 hlt => ?_, fun h0 heq => ?_⟩
  · rw [if_pos h]
  · rw [if_neg (by omega), if_neg (by omega), if_pos hlt]
    have hn : 1 ≤ AffectionCalculator.negative_count message := by omega
    have hcast : (1:ℚ) ≤ (AffectionCalculator.negative_count message : ℚ) := by
      exact_mod_cast hn
    have hneg : max (-5.0) (-(AffectionCalculator.negative_count message : ℚ) * 1.0) < 0 := by
      apply max_lt (by norm_num)
      have hrw : -(AffectionCalculator.negative_count message : ℚ) * 1.0 =
          -(AffectionCalculator.negative_count message : ℚ) := by ring
      rw [hrw]
      linarith
    refine ⟨rfl, hneg, abs_le.mpr ⟨le_trans (by norm_num) (le_max_left _ _),
      le_trans (le_of_lt hneg) (by norm_num)⟩⟩
  · rw [if_neg (by omega), if_neg (by omega), if_neg (by omega)]

theorem claim_C7_witness :
    (0 < AffectionCalculator.other_girl_count "ex" ∧
      AffectionCalculator.analyze_message_sentiment "ex" = ("mention_other_girl", -5.0)) ∧
    (AffectionCalculator.other_girl_count "bad" = 0 ∧
      AffectionCalculator.positive_count "bad" < AffectionCalculator.negative_count "bad" ∧
      (AffectionCalculator.analyze_message_sentiment "bad").1 = "rude") ∧
    (AffectionCalculator.other_girl_count "hello" = 0 ∧
      AffectionCalculator.positive_count "hello" = AffectionCalculator.negative_count "hello" ∧
      AffectionCalculator.analyze_message_sentiment "hello" = ("neutral", 0.0)) :=
  ⟨⟨by decide, (claim_C7_sentiment_priority "ex").1 (by decide)⟩,
   ⟨by decide, by decide, ((claim_C7_sentiment_priority "bad").2.1 (by decide) (by decide)).1⟩,
   ⟨by decide, by decide, (claim_C7_sentiment_priority "hello").2.2 (by decide) (by decide)⟩⟩

/-- The `AffectionState` dataclass.  `datetime` fields are `ℤ` timestamps;
`special_events` entries are `(type, description, date)` triples. -/
structure AffectionState where
  user_id : String
  score : ℚ := 20
  last_interaction : ℤ := 0
  interaction_count : ℕ := 0
  consecutive_positive : ℕ := 0
  consecutive_negative : ℕ := 0
  current_mood : String := "neutral"
  mood_intensity : ℚ := 0.5
  mood_reason : String := ""
  is_ignoring : Bool := false
  ignore_until : Option ℤ := none
  special_events : List (String × String × ℤ) := []
  total_messages : ℕ := 0
  positive_interactions : ℕ := 0
  negative_interactions : ℕ := 0
  gifts_received : ℕ := 0
  dates_had : ℕ := 0
deriving Repr, DecidableEq

/-- The pair returned by `AffectionSystem.update`, together with the
mutated state record (which in Python is updated in place). -/
structure UpdateResult where
  state : AffectionState
  score : ℚ
  feedback : String
deriving Repr, DecidableEq

/-- The "still upset" message of the sulk guard in `AffectionSystem.update`;
`(ignore_until - now).seconds // 60` is the Python remaining-minutes value. -/
def still_upset_feedback (ignore_until now : ℤ) : String :=
  let m := ((ignore_until - now).emod 86400).fdiv 60
  s!"まだ怒ってる...（残り{m}分）"

/-- `AffectionSystem._generate_feedback`. -/
def generate_feedback (old_score new_score : ℚ) : String :=
  let change := new_score - old_score
  if change > 3 then "好感度が大幅に上昇！"
  else if change > 1 then "好感度が上がった～"
  else if change > 0 then "好感度が少し上昇"
  else if change < -3 then "好感度が大幅に下降..."
  else if change < -1 then "好感度が下がった"
  else if change < 0 then "好感度が少し下降"
  else ""

/-- The injection of the state's consecutive counters into the context,
performed by `AffectionSystem.update` before calling the calculator. -/
def inject_counters (s : AffectionState) (context : Ctx) : Ctx :=
  { context with
      consecutive_positive := (s.consecutive_positive : ℤ),
      consecutive_negative := (s.consecutive_negative : ℤ) }

/-- The body of `AffectionSystem.update` after the sulk guard: computes the
delta, clamps and stores the new score, refreshes `last_interaction` and the
counters, and triggers the sulk state on a severe negative change. -/
def update_core (s : AffectionState) (action : String) (context : Ctx) (now : ℤ) :
    UpdateResult :=
  let ctx2 := inject_counters s context
  let change := AffectionCalculator.calculate_change action s.score ctx2
  let old_score := s.score
  let s1 : AffectionState :=
    { s with
        score := max 0 (min 100 (s.score + change)),
        last_interaction := now,
        interaction_count := s.interaction_count + 1,
        total_messages := s.total_messages + 1 }
  let s2 : AffectionState :=
    if change > 0 then
      { s1 with
          consecutive_positive := s1.consecutive_positive + 1,
          consecutive_negative := 0,
          positive_interactions := s1.positive_interactions + 1 }
    else if change < 0 then
      let s3 : AffectionState :=
        { s1 with
            consecutive_negative := s1.consecutive_negative + 1,
            consecutive_positive := 0,
            negative_interactions := s1.negative_interactions + 1 }
      if change ≤ -5 ∧ s3.score < 50 then
        { s3 with is_ignoring := true, ignore_until := some (now + 30 * 60) }
      else s3
    else s1
  { state := s2, score := s2.score, feedback := generate_feedback old_score s2.score }

/-- `AffectionSystem.update` acting on a single user's state record: the
sulk guard (a no-op while `now < ignore_until`, lazily clearing the flag
afterwards) followed by `update_core`. -/
def update_state (s : AffectionState) (action : String) (context : Ctx) (now : ℤ) :
    UpdateResult :=
  match s.is_ignoring, s.ignore_until with
  | true, some t =>
    if now < t then
      { state := s, score := s.score, feedback := still_upset_feedback t now }
    else
      update_core { s with is_ignoring := false, ignore_until := none } action context now
  | true, none => update_core s action context now
  | false, _ => update_core s action context now

/-- Adding the post-clamp delta to the current score lands inside `[0,100]`,
so the second clamp in `update` is the identity. -/
theorem score_add_change (s : ℚ) (a : String) (c : Ctx) :
    max 0 (min 100 (s + AffectionCalculator.calculate_change a s c)) =
      s + AffectionCalculator.calculate_change a s c := by
  have hx : s + AffectionCalculator.calculate_change a s c =
      clamp01 (s + rawDeltaSpec a s c) := by
    rw [calculate_change_eq_clamp]; ring
  rw [hx]
  exact clamp01_of_mem (clamp01_nonneg _) (clamp01_le_100 _)

theorem update_core_returned (s : AffectionState) (a : String) (c : Ctx) (now : ℤ) :
    (update_core s a c now).score = (update_core s a c now).state.score := rfl

theorem update_core_score_eq (s : AffectionState) (a : String) (c : Ctx) (now : ℤ) :
    (update_core s a c now).state.score =
      s.score + AffectionCalculator.calculate_change a s.score (inject_counters s c) := by
  simp only [update_core]
  split_ifs <;> exact score_add_change s.score a (inject_counters s c)

theorem update_core_score_mem (s : AffectionState) (a : String) (c : Ctx) (now : ℤ) :
    0 ≤ (update_core s a c now).state.score ∧ (update_core s a c now).state.score ≤ 100 := by
  rw [update_core_score_eq]
  have hx : s.score + AffectionCalculator.calculate_change a s.score (inject_counters s c) =
      clamp01 (s.score + rawDeltaSpec a s.score (inject_counters s c)) := by
    rw [calculate_change_eq_clamp]; ring
  rw [hx]
  exact ⟨clamp01_nonneg _, clamp01_le_100 _⟩

theorem update_core_last (s : AffectionState) (a : String) (c : Ctx) (now : ℤ) :
    (update_core s a c now).state.last_interaction = now := by
  simp only [update_core]
  split_ifs <;> rfl

theorem update_core_pos {s : AffectionState} {a : String} {c : Ctx} {now : ℤ}
    (h : 0 < AffectionCalculator.calculate_change a s.score (inject_counters s c)) :
    (update_core s a c now).state.consecutive_positive = s.consecutive_positive + 1 ∧
    (update_core s a c now).state.consecutive_negative = 0 := by
  simp only [update_core]
  rw [if_pos h]
  exact ⟨rfl, rfl⟩

theorem update_core_neg {s : AffectionState} {a : String} {c : Ctx} {now : ℤ}
    (h : AffectionCalculator.calculate_change a s.score (inject_counters s c) < 0) :
    (update_core s a c now).state.consecutive_negative = s.consecutive_negative + 1 ∧
    (update_core s a c now).state.consecutive_positive = 0 := by
  simp only [update_core]
  rw [if_neg (by linarith), if_pos h]
  split_ifs <;> exact ⟨rfl, rfl⟩

theorem update_core_zero {s : AffectionState} {a : String} {c : Ctx} {now : ℤ}
    (h : AffectionCalculator.calculate_change a s.score (inject_counters s c) = 0) :
    (update_core s a c now).state.consecutive_positive = s.consecutive_positive ∧
    (update_core s a c now).state.consecutive_negative = s.consecutive_negative := by
  simp only [update_core]
  rw [if_neg (by rw [h]; exact lt_irrefl 0), if_neg (by rw [h]; exact lt_irrefl 0)]
  exact ⟨rfl, rfl⟩

theorem update_core_sulk {s : AffectionState} {a : String} {c : Ctx} {now : ℤ}
    (h1 : AffectionCalculator.calculate_change a s.score (inject_counters s c) ≤ -5)
    (h2 : s.score < 50) :
    (update_core s a c now).state.is_ignoring = true ∧
    (update_core s a c now).state.ignore_until = some (now + 30 * 60) := by
  have hscore : (update_core s a c now).state.score =
      s.score + AffectionCalculator.calculate_change a s.score (inject_counters s c) :=
    update_core_score_eq s a c now
  simp only [update_core] at hscore ⊢
  rw [if_neg (by linarith), if_pos (by linarith : AffectionCalculator.calculate_change a s.score (inject_counters s c) < 0)]
  rw [if_neg (by linarith), if_pos (by linarith :
    AffectionCalculator.calculate_change a s.score (inject_counters s c) < 0)] at hscore
  refine ⟨?_, ?_⟩ <;> rw [if_pos ?_] <;> try rfl
  all_goals
    constructor
    · exact h1
    · split_ifs at hscore <;> simp only at hscore <;> linarith

/-- The sulk guard of `AffectionSystem.update` fires: the user is ignoring
and the ignore window has not elapsed. -/
def blocked (s : AffectionState) (now : ℤ) : Prop :=
  s.is_ignoring = true ∧ ∃ t, s.ignore_until = some t ∧ now < t

theorem update_state_blocked {s : AffectionState} {now : ℤ} (a : String) (c : Ctx)
    {t : ℤ} (hig : s.is_ignoring = true) (hu : s.ignore_until = some t) (hlt : now < t) :
    update_state s a c now =
      { state := s, score := s.score, feedback := still_upset_feedback t now } := by
  unfold update_state
  rw [hig, hu]
  simp [hlt]

/-- Every `update_state` call is either the sulk-guard no-op or an
`update_core` call on a state with the same score, counters and user id. -/
theorem update_state_cases (s : AffectionState) (a : String) (c : Ctx) (now : ℤ) :
    (∃ t, s.is_ignoring = true ∧ s.ignore_until = some t ∧ now < t ∧
       update_state s a c now =
         { state := s, score := s.score, feedback := still_upset_feedback t now }) ∨
    (∃ s0 : AffectionState, update_state s a c now = update_core s0 a c now ∧
       s0.score = s.score ∧ s0.consecutive_positive = s.consecutive_positive ∧
       s0.consecutive_negative = s.consecutive_negative ∧ s0.user_id = s.user_id) := by
  cases hig : s.is_ignoring with
  | false =>
    refine Or.inr ⟨s, ?_, rfl, rfl, rfl, rfl⟩
    unfold update_state
    rw [hig]
  | true =>
    cases hu : s.ignore_until with
    | none =>
      refine Or.inr ⟨s, ?_, rfl, rfl, rfl, rfl⟩
      unfold update_state
      rw [hig, hu]
    | some t =>
      by_cases hlt : now < t
      · exact Or.inl ⟨t, rfl, rfl, hlt, update_state_blocked a c hig hu hlt⟩
      · refine Or.inr ⟨{ s with is_ignoring := false, ignore_until := none },
          ?_, rfl, rfl, rfl, rfl⟩
        unfold update_state
        rw [hig, hu]
        simp [hlt]

/-- Counter behaviour of a single `update` call, phrased in terms of the
resulting (post-clamp) delta: positive increments and resets, negative does
the converse, zero changes neither. -/
theorem update_state_counter_step (s : AffectionState) (a : String) (c : Ctx) (now : ℤ) :
    (0 < (update_state s a c now).score - s.score →
       (update_state s a c now).state.consecutive_positive = s.consecutive_positive + 1 ∧
       (update_state s a c now).state.consecutive_negative = 0) ∧
    ((update_state s a c now).score - s.score < 0 →
       (update_state s a c now).state.consecutive_negative = s.consecutive_negative + 1 ∧
       (update_state s a c now).state.consecutive_positive = 0) ∧
    ((update_state s a c now).score - s.score = 0 →
       (update_state s a c now).state.consecutive_positive = s.consecutive_positive ∧
       (update_state s a c now).state.consecutive_negative = s.consecutive_negative) := by
  rcases update_state_cases s a c now with ⟨t, hig, hu, hlt, heq⟩ | ⟨s0, heq, hsc, hcp, hcn, hid⟩
  · rw [heq]
    exact ⟨fun h => absurd h (by simp), fun h => absurd h (by simp), fun h => ⟨rfl, rfl⟩⟩
  · rw [heq, update_core_returned, update_core_score_eq, hsc, add_sub_cancel_left]
    refine ⟨fun h => ?_, fun h => ?_, fun h => ?_⟩
    · have h0 : 0 < AffectionCalculator.calculate_change a s0.score (inject_counters s0 c) := by
        rw [hsc]; exact h
      rcases @update_core_pos s0 a c now h0 with ⟨h1, h2⟩
      rw [h1, h2, hcp]
      exact ⟨rfl, rfl⟩
    · have h0 : AffectionCalculator.calculate_change a s0.score (inject_counters s0 c) < 0 := by
        rw [hsc]; exact h
      rcases @update_core_neg s0 a c now h0 with ⟨h1, h2⟩
      rw [h1, h2, hcn]
      exact ⟨rfl, rfl⟩
    · have h0 : AffectionCalculator.calculate_change a s0.score (inject_counters s0 c) = 0 := by
        rw [hsc]; exact h
      rcases @update_core_zero s0 a c now h0 with ⟨h1, h2⟩
      rw [h1, h2, hcp, hcn]
      exact ⟨rfl, rfl⟩

/-- A single `update` call keeps the stored score inside `[0,100]`. -/
theorem update_state_score_mem (s : AffectionState) (a : String) (c : Ctx) (now : ℤ)
    (h0 : 0 ≤ s.score) (h1 : s.score ≤ 100) :
    0 ≤ (update_state s a c now).state.score ∧ (update_state s a c now).state.score ≤ 100 := by
  rcases update_state_cases s a c now with ⟨t, hig, hu, hlt, heq⟩ | ⟨s0, heq, hsc, hcp, hcn, hid⟩
  · rw [heq]
    exact ⟨h0, h1⟩
  · rw [heq]
    exact update_core_score_mem s0 a c now

/-- `AffectionState(user_id=uid)` freshly constructed at time `now`
(dataclass defaults; `last_interaction` defaults to the creation time). -/
def fresh_state (user_id : String) (now : ℤ) : AffectionState :=
  { user_id := user_id, last_interaction := now }

/-- Folding a sequence of `update` calls `(action, context, time)` over one
user's state record. -/
def apply_update_list (s : AffectionState) (l : List (String × Ctx × ℤ)) : AffectionState :=
  l.foldl (fun st x => (update_state st x.1 x.2.1 x.2.2).state) s

theorem counters_exclusive_step (s : AffectionState) (a : String) (c : Ctx) (now : ℤ)
    (h : s.consecutive_positive = 0 ∨ s.consecutive_negative = 0) :
    (update_state s a c now).state.consecutive_positive = 0 ∨
    (update_state s a c now).state.consecutive_negative = 0 := by
  rcases update_state_counter_step s a c now with ⟨hp, hn, hz⟩
  rcases lt_trichotomy ((update_state s a c now).score - s.score) 0 with hlt | heq | hgt
  · exact Or.inl (hn hlt).2
  · rcases h with h | h
    · exact Or.inl (by rw [(hz heq).1, h])
    · exact Or.inr (by rw [(hz heq).2, h])
  · exact Or.inr (hp hgt).2

theorem counters_exclusive_list (l : List (String × Ctx × ℤ)) :
    ∀ s : AffectionState, (s.consecutive_positive = 0 ∨ s.consecutive_negative = 0) →
      ((apply_update_list s l).consecutive_positive = 0 ∨
       (apply_update_list s l).consecutive_negative = 0) := by
  induction l with
  | nil => exact fun s h => h
  | cons x xs ih => exact fun s h => ih _ (counters_exclusive_step s x.1 x.2.1 x.2.2 h)

/-- C6: starting from a fresh state, after any sequence of `update` calls the
two consecutive counters are never both nonzero, and each single call with a
positive delta increments `consecutive_positive` resetting
`consecutive_negative`, a negative delta does the converse, and a zero delta
changes neither. -/
theorem claim_C6_counters_mutually_exclusive :
    (∀ (user_id : String) (now0 : ℤ) (l : List (String × Ctx × ℤ)),
       (apply_update_list (fresh_state user_id now0) l).consecutive_positive = 0 ∨
       (apply_update_list (fresh_state user_id now0) l).consecutive_negative = 0) ∧
    (∀ (s : AffectionState) (a : String) (c : Ctx) (now : ℤ),
       (0 < (update_state s a c now).score - s.score →
          (update_state s a c now).state.consecutive_positive = s.consecutive_positive + 1 ∧
          (update_state s a c now).state.consecutive_negative = 0) ∧
       ((update_state s a c now).score - s.score < 0 →
          (update_state s a c now).state.consecutive_negative = s.consecutive_negative + 1 ∧
          (update_state s a c now).state.consecutive_positive = 0) ∧
       ((update_state s a c now).score - s.score = 0 →
          (update_state s a c now).state.consecutive_positive = s.consecutive_positive ∧
          (update_state s a c now).state.consecutive_negative = s.consecutive_negative)) :=
  ⟨fun user_id now0 l => counters_exclusive_list l (fresh_state user_id now0) (Or.inl rfl),
   update_state_counter_step⟩

theorem claim_C6_witness :
    0 < (update_state (fresh_state "u" 0) "gift" {} 0).score - (fresh_state "u" 0).score ∧
    (update_state (fresh_state "u" 0) "gift" {} 0).state.consecutive_positive =
      (fresh_state "u" 0).consecutive_positive + 1 ∧
    (update_state (fresh_state "u" 0) "gift" {} 0).state.consecutive_negative = 0 :=
  have hd : 0 < (update_state (fresh_state "u" 0) "gift" {} 0).score -
      (fresh_state "u" 0).score := by
    simp [update_state, update_core, fresh_state, inject_counters,
      AffectionCalculator.calculate_change, AffectionCalculator.POSITIVE_FACTORS,
      AffectionCalculator.NEGATIVE_FACTORS, List.lookup]
    norm_num [min_def, max_def]
  ⟨hd, (claim_C6_counters_mutually_exclusive.2 (fresh_state "u" 0) "gift" {} 0).1 hd⟩

/-- C5: an `update` whose resulting post-clamp delta is at most `-5` while
the score is below 50 sets `is_ignoring` and `ignore_until = now + 30min`;
and an `update` issued while `now < ignore_until` (with the ignoring flag
set) leaves the state, and in particular the score, unchanged, returning the
current score. -/
theorem claim_C5_sulk_trigger_and_freeze (s : AffectionState) (a : String) (c : Ctx) (now : ℤ) :
    ((update_state s a c now).score - s.score ≤ -5 → s.score < 50 →
       (update_state s a c now).state.is_ignoring = true ∧
       (update_state s a c now).state.ignore_until = some (now + 30 * 60)) ∧
    (∀ t, s.is_ignoring = true → s.ignore_until = some t → now < t →
       (update_state s a c now).state = s ∧ (update_state s a c now).score = s.score) := by
  constructor
  · intro hd hsc
    rcases update_state_cases s a c now with ⟨t, hig, hu, hlt, heq⟩ | ⟨s0, heq, hsc0, hcp, hcn, hid⟩
    · exfalso
      rw [heq] at hd
      simp only [sub_self] at hd
      linarith
    · rw [heq] at hd ⊢
      rw [update_core_returned, update_core_score_eq, hsc0, add_sub_cancel_left] at hd
      have h1 : AffectionCalculator.calculate_change a s0.score (inject_counters s0 c) ≤ -5 := by
        rw [hsc0]; exact hd
      exact update_core_sulk h1 (by rw [hsc0]; exact hsc)
  · intro t hig hu hlt
    rw [update_state_blocked a c hig hu hlt]
    exact ⟨rfl, rfl⟩

/-- A concrete state already in the sulking window, used as witness input. -/
def sulking_example : AffectionState :=
  { user_id := "u", is_ignoring := true, ignore_until := some 1000 }

theorem claim_C5_witness :
    ((update_state (fresh_state "u" 0) "insult" {} 0).score - (fresh_state "u" 0).score ≤ -5 ∧
     (fresh_state "u" 0).score < 50 ∧
     (update_state (fresh_state "u" 0) "insult" {} 0).state.is_ignoring = true ∧
     (update_state (fresh_state "u" 0) "insult" {} 0).state.ignore_until = some (0 + 30 * 60)) ∧
    ((update_state sulking_example "gift" {} 0).state = sulking_example ∧
     (update_state sulking_example "gift" {} 0).score = sulking_example.score) :=
  have hd : (update_state (fresh_state "u" 0) "insult" {} 0).score -
      (fresh_state "u" 0).score ≤ -5 := by
    simp [update_state, update_core, fresh_state, inject_counters,
      AffectionCalculator.calculate_change, AffectionCalculator.POSITIVE_FACTORS,
      AffectionCalculator.NEGATIVE_FACTORS, List.lookup]
    norm_num [min_def, max_def]
  have hs : (fresh_state "u" 0).score < 50 := by norm_num [fresh_state]
  ⟨⟨hd, hs, (claim_C5_sulk_trigger_and_freeze (fresh_state "u" 0) "insult" {} 0).1 hd hs⟩,
   (claim_C5_sulk_trigger_and_freeze sulking_example "gift" {} 0).2 1000 rfl rfl (by decide)⟩

/-- `AffectionSystem`: the `_states` dictionary keyed by user id. -/
structure AffectionSystem where
  states : String → Option AffectionState

/-- An `AffectionSystem` with no stored states (fresh data directory: the
snapshot file does not exist, so `_load_states` loads nothing). -/
def AffectionSystem.empty : AffectionSystem := ⟨fun _ => none⟩

/-- `AffectionSystem.get_state`: lazily creates the record on first access
and returns it together with the (possibly extended) store.  The returned
record is the stored one: in Python both are the same mutable object. -/
def AffectionSystem.get_state (sys : AffectionSystem) (user_id : String) (now : ℤ) :
    AffectionState × AffectionSystem :=
  match sys.states user_id with
  | some st => (st, sys)
  | none =>
    let st := fresh_state user_id now
    (st, ⟨fun u => if u = user_id then some st else sys.states u⟩)

/-- `AffectionSystem.update`: fetches (or creates) the user's record, runs
the single-state update, and stores the mutated record back. -/
def AffectionSystem.update (sys : AffectionSystem) (user_id action : String) (context : Ctx)
    (now : ℤ) : AffectionSystem × ℚ × String :=
  let p := sys.get_state user_id now
  let r := update_state p.1 action context now
  (⟨fun u => if u = user_id then some r.state else p.2.states u⟩, r.score, r.feedback)

/-- A sequence of `AffectionSystem.update` calls
`(user, action, context, time)` from a given store. -/
def apply_system_calls (sys : AffectionSystem) (calls : List (String × String × Ctx × ℤ)) :
    AffectionSystem :=
  calls.foldl (fun s x => (AffectionSystem.update s x.1 x.2.1 x.2.2.1 x.2.2.2).1) sys

/-- Every stored score lies in `[0,100]`. -/
def scores_in_range (sys : AffectionSystem) : Prop :=
  ∀ user_id st, sys.states user_id = some st → 0 ≤ st.score ∧ st.score ≤ 100

theorem get_state_fst_range {sys : AffectionSystem} (h : scores_in_range sys)
    (user_id : String) (now : ℤ) :
    0 ≤ (sys.get_state user_id now).1.score ∧ (sys.get_state user_id now).1.score ≤ 100 := by
  unfold AffectionSystem.get_state
  cases hst : sys.states user_id with
  | some st => exact h user_id st hst
  | none => norm_num [fresh_state]

theorem get_state_snd_range {sys : AffectionSystem} (h : scores_in_range sys)
    (user_id : String) (now : ℤ) :
    scores_in_range (sys.get_state user_id now).2 := by
  unfold AffectionSystem.get_state
  cases hst : sys.states user_id with
  | some st => exact h
  | none =>
    intro u st hu
    simp only at hu
    by_cases hequ : u = user_id
    · rw [if_pos hequ] at hu
      cases hu
      norm_num [fresh_state]
    · rw [if_neg hequ] at hu
      exact h u st hu

theorem system_update_range {sys : AffectionSystem} (h : scores_in_range sys)
    (user_id action : String) (context : Ctx) (now : ℤ) :
    scores_in_range (AffectionSystem.update sys user_id action context now).1 := by
  intro u st hu
  unfold AffectionSystem.update at hu
  simp only at hu
  by_cases hequ : u = user_id
  · rw [if_pos hequ] at hu
    cases hu
    exact update_state_score_mem _ action context now
      (get_state_fst_range h user_id now).1 (get_state_fst_range h user_id now).2
  · rw [if_neg hequ] at hu
    exact get_state_snd_range h user_id now u st hu

theorem apply_system_calls_range (calls : List (String × String × Ctx × ℤ)) :
    ∀ sys : AffectionSystem, scores_in_range sys →
      scores_in_range (apply_system_calls sys calls) := by
  induction calls with
  | nil => exact fun sys h => h
  | cons x xs ih =>
    exact fun sys h => ih _ (system_update_range h x.1 x.2.1 x.2.2.1 x.2.2.2)

/-- C1: starting from the initial (empty) store, after any sequence of
`AffectionSystem.update` calls — for any users, actions (including `decay`
and special-event bonus actions), contexts and times — every stored
`AffectionState` score lies in `[0,100]`. -/
theorem claim_C1_score_always_in_range
    (calls : List (String × String × Ctx × ℤ)) (user_id : String) (st : AffectionState)
    (h : (apply_system_calls AffectionSystem.empty calls).states user_id = some st) :
    0 ≤ st.score ∧ st.score ≤ 100 := by
  refine apply_system_calls_range calls AffectionSystem.empty ?_ user_id st h
  intro u s hu
  exact absurd hu (by simp [AffectionSystem.empty])

/-- The stored record after one `update` call with an unknown action on a
fresh user, used as witness input. -/
def c1_witness_state : AffectionState :=
  { user_id := "u", score := 20, last_interaction := 0, interaction_count := 1,
    total_messages := 1 }

theorem claim_C1_witness :
    (apply_system_calls AffectionSystem.empty [("u", "unknown_action", {}, 0)]).states "u" =
      some c1_witness_state ∧
    0 ≤ c1_witness_state.score ∧ c1_witness_state.score ≤ 100 :=
  have h : (apply_system_calls AffectionSystem.empty
      [("u", "unknown_action", {}, 0)]).states "u" = some c1_witness_state := by
    simp [apply_system_calls, AffectionSystem.update, AffectionSystem.get_state,
      AffectionSystem.empty, update_state, update_core, fresh_state, inject_counters,
      AffectionCalculator.calculate_change, AffectionCalculator.POSITIVE_FACTORS,
      AffectionCalculator.NEGATIVE_FACTORS, List.lookup, c1_witness_state]
    norm_num [min_def, max_def]
  ⟨h, (claim_C1_score_always_in_range [("u", "unknown_action", {}, 0)] "u" _ h).1,
      (claim_C1_score_always_in_range [("u", "unknown_action", {}, 0)] "u" _ h).2⟩

/-- C10: for a user id not yet in the store, `get_state` lazily creates a
record with the dataclass defaults — score 20, neutral mood of intensity
0.5, not ignoring, no ignore deadline, all counters zero — and subsequent
`get_state` calls return that same stored record without further change. -/
theorem claim_C10_get_state_lazy_defaults (sys : AffectionSystem) (user_id : String) (now : ℤ)
    (h : sys.states user_id = none) :
    ((sys.get_state user_id now).1.score = 20 ∧
     (sys.get_state user_id now).1.current_mood = "neutral" ∧
     (sys.get_state user_id now).1.mood_intensity = 0.5 ∧
     (sys.get_state user_id now).1.is_ignoring = false ∧
     (sys.get_state user_id now).1.ignore_until = none ∧
     (sys.get_state user_id now).1.interaction_count = 0 ∧
     (sys.get_state user_id now).1.consecutive_positive = 0 ∧
     (sys.get_state user_id now).1.consecutive_negative = 0 ∧
     (sys.get_state user_id now).1.total_messages = 0 ∧
     (sys.get_state user_id now).1.positive_interactions = 0 ∧
     (sys.get_state user_id now).1.negative_interactions = 0) ∧
    ((sys.get_state user_id now).2.states user_id = some (sys.get_state user_id now).1 ∧
     ∀ now2 : ℤ,
       ((sys.get_state user_id now).2.get_state user_id now2).1 = (sys.get_state user_id now).1 ∧
       ((sys.get_state user_id now).2.get_state user_id now2).2 = (sys.get_state user_id now).2) := by
  have hget : sys.get_state user_id now =
      (fresh_state user_id now,
       ⟨fun u => if u = user_id then some (fresh_state user_id now) else sys.states u⟩) := by
    unfold AffectionSystem.get_state
    rw [h]
  rw [hget]
  refine ⟨?_, ?_, ?_⟩
  · norm_num [fresh_state]
  · simp
  · intro now2
    constructor <;> · unfold AffectionSystem.get_state; simp

theorem claim_C10_witness :
    AffectionSystem.empty.states "u" = none ∧
    (AffectionSystem.empty.get_state "u" 0).1.score = 20 ∧
    (AffectionSystem.empty.get_state "u" 0).1.is_ignoring = false ∧
    ((AffectionSystem.empty.get_state "u" 0).2.get_state "u" 7).1 =
      (AffectionSystem.empty.get_state "u" 0).1 :=
  have hc := claim_C10_get_state_lazy_defaults AffectionSystem.empty "u" 0 rfl
  ⟨rfl, hc.1.1, hc.1.2.2.2.1, (hc.2.2 7).1⟩

/-- `AffectionSystem._generate_interaction_feedback` (it reads only the
triggered-action list). -/
def generate_interaction_feedback (actions : List String) : String :=
  if actions = [] then ""
  else
    String.intercalate " "
      ((if actions.contains "compliment" then ["そう言ってもらえて、すごく嬉しいな～"] else []) ++
       (if actions.contains "mention_other_girl" then ["（少し不機嫌そう）"] else []) ++
       (if actions.contains "rude" then ["（少し悲しそう）"] else []) ++
       (if actions.contains "good_morning_night" then ["気が利くね～"] else []) ++
       (if actions.contains "quick_response" then ["返信が早いね！"] else []))

/-- The actions triggered by a message in `process_message`: the sentiment
action (unless neutral), a time-of-day greeting bonus, and a quick-response
bonus, appended in the source's order.  Note Python's truthiness test on
`response_time_seconds` rejects both `None` and `0`. -/
def triggered_actions (message : String) (response_time_seconds : Option ℚ) (now : ℤ) :
    List String :=
  let sentiment_action := (AffectionCalculator.analyze_message_sentiment message).1
  let l1 := if sentiment_action ≠ "neutral" then [sentiment_action] else []
  let hour := py_hour now
  let l2 :=
    if py_in "おはよう" message || py_in "お早う" message then
      (if 5 ≤ hour ∧ hour ≤ 10 then ["good_morning_night"] else [])
    else if py_in "おやすみ" message || py_in "お休み" message then
      (if 20 ≤ hour ∧ hour ≤ 24 then ["good_morning_night"] else [])
    else []
  let l3 :=
    match response_time_seconds with
    | some rt => if rt ≠ 0 ∧ rt < 60 then ["quick_response"] else []
    | none => []
  l1 ++ l2 ++ l3

/-- The update calls issued by the action phase of `process_message`: the
triggered actions, or a single `base_message` bump when none triggered. -/
def applied_actions (message : String) (response_time_seconds : Option ℚ) (now : ℤ) :
    List String :=
  if triggered_actions message response_time_seconds now = [] then ["base_message"]
  else triggered_actions message response_time_seconds now

/-- The triggered-action loop of `process_message`: each action is applied
via `update` with no context. -/
def AffectionSystem.apply_actions (sys : AffectionSystem) (user_id : String)
    (acts : List String) (now : ℤ) : AffectionSystem :=
  acts.foldl (fun s a => (AffectionSystem.update s user_id a {} now).1) sys

/-- `AffectionSystem._apply_decay`: issues a `decay` update when the stored
state's inactivity reaches the threshold.  The second component records the
update calls it made, for reasoning about call order. -/
def AffectionSystem.apply_decay (sys : AffectionSystem) (user_id : String) (now : ℤ) :
    AffectionSystem × List String :=
  let p := sys.get_state user_id now
  let days_inactive := days_between p.1.last_interaction now
  if days_inactive ≥ AffectionCalculator.DECAY_THRESHOLD_DAYS then
    ((AffectionSystem.update p.2 user_id "decay" { days_inactive := days_inactive } now).1,
     ["decay"])
  else (p.2, [])

/-- Result of `process_message`: the source returns
`(score, feedback, triggered_actions)` and mutates `self`; `trace` lists the
actions passed to `update` in call order. -/
structure ProcessResult where
  sys : AffectionSystem
  score : ℚ
  feedback : String
  triggered : List String
  trace : List String

/-- `AffectionSystem.process_message`.  The returned score is read from the
`state` local variable, which in Python aliases the stored mutable record —
that is, the record as it stands after the triggered updates and the decay
check have run. -/
def AffectionSystem.process_message (sys : AffectionSystem) (user_id message : String)
    (response_time_seconds : Option ℚ) (now : ℤ) : ProcessResult :=
  let p := sys.get_state user_id now
  let triggered := triggered_actions message response_time_seconds now
  let acts := applied_actions message response_time_seconds now
  let sys1 := AffectionSystem.apply_actions p.2 user_id acts now
  let pd := sys1.apply_decay user_id now
  let final := (pd.1.get_state user_id now).1
  { sys := pd.1,
    score := final.score,
    feedback := generate_interaction_feedback triggered,
    triggered := triggered,
    trace := acts ++ pd.2 }

theorem system_eq_of_states {s1 s2 : AffectionSystem} (h : s1.states = s2.states) : s1 = s2 := by
  cases s1
  cases s2
  cases h
  rfl

theorem system_update_states_self (sys : AffectionSystem) (user_id action : String)
    (context : Ctx) (now : ℤ) :
    (AffectionSystem.update sys user_id action context now).1.states user_id =
      some (update_state (sys.get_state user_id now).1 action context now).state := by
  unfold AffectionSystem.update
  simp

/-- After any single `update`, the stored record is either still inside the
sulk window (the call was a no-op) or has `last_interaction = now`. -/
theorem update_state_post (s : AffectionState) (a : String) (c : Ctx) (now : ℤ) :
    blocked (update_state s a c now).state now ∨
    (update_state s a c now).state.last_interaction = now := by
  rcases update_state_cases s a c now with ⟨t, hig, hu, hlt, heq⟩ | ⟨s0, heq, _, _, _, _⟩
  · rw [heq]
    exact Or.inl ⟨hig, t, hu, hlt⟩
  · rw [heq]
    exact Or.inr (update_core_last s0 a c now)

theorem system_update_post (sys : AffectionSystem) (user_id action : String)
    (context : Ctx) (now : ℤ) :
    ∃ st, (AffectionSystem.update sys user_id action context now).1.states user_id = some st ∧
      (blocked st now ∨ st.last_interaction = now) :=
  ⟨_, system_update_states_self sys user_id action context now,
    update_state_post (sys.get_state user_id now).1 action context now⟩

/-- After a nonempty action phase the stored record is either inside the
sulk window or freshly touched. -/
theorem apply_actions_post (user_id : String) (now : ℤ) :
    ∀ (acts : List String) (sys : AffectionSystem), acts ≠ [] →
      ∃ st, (AffectionSystem.apply_actions sys user_id acts now).states user_id = some st ∧
        (blocked st now ∨ st.last_interaction = now) := by
  intro acts
  induction acts with
  | nil => exact fun sys h => absurd rfl h
  | cons a rest ih =>
    intro sys _
    cases rest with
    | nil => exact system_update_post sys user_id a {} now
    | cons b rs => exact ih _ (by simp)

/-- If the stored record is sulking or freshly touched, `_apply_decay`
leaves the store unchanged: either the inactivity is zero, or the `decay`
update itself hits the sulk guard. -/
theorem apply_decay_noop {sys : AffectionSystem} {user_id : String} {now : ℤ}
    {st : AffectionState} (hst : sys.states user_id = some st)
    (hpost : blocked st now ∨ st.last_interaction = now) :
    (sys.apply_decay user_id now).1 = sys := by
  have hget : sys.get_state user_id now = (st, sys) := by
    unfold AffectionSystem.get_state
    rw [hst]
  unfold AffectionSystem.apply_decay
  rw [hget]
  rcases hpost with hb | hl
  · by_cases hd : days_between st.last_interaction now ≥ AffectionCalculator.DECAY_THRESHOLD_DAYS
    · rw [if_pos hd]
      rcases hb with ⟨hig, t, hu, hlt⟩
      unfold AffectionSystem.update
      rw [hget]
      dsimp only
      rw [update_state_blocked _ _ hig hu hlt]
      refine system_eq_of_states (funext fun u => ?_)
      dsimp only
      by_cases hequ : u = user_id
      · rw [if_pos hequ, hequ, hst]
      · rw [if_neg hequ]
    · rw [if_neg hd]
  · rw [if_neg ?_]
    rw [hl]
    unfold days_between
    simp [AffectionCalculator.DECAY_THRESHOLD_DAYS]

/-- The whole effect of `process_message` on the store comes from the
action phase: the trailing decay check never changes anything. -/
theorem process_message_sys_eq (sys : AffectionSystem) (user_id message : String)
    (response_time_seconds : Option ℚ) (now : ℤ) :
    (sys.process_message user_id message response_time_seconds now).sys =
      AffectionSystem.apply_actions (sys.get_state user_id now).2 user_id
        (applied_actions message response_time_seconds now) now := by
  have hne : applied_actions message response_time_seconds now ≠ [] := by
    unfold applied_actions
    split_ifs with h
    · simp
    · exact h
  rcases apply_actions_post user_id now (applied_actions message response_time_seconds now)
      (sys.get_state user_id now).2 hne with ⟨st, hst, hpost⟩
  exact apply_decay_noop hst hpost

theorem applied_actions_ne_nil (message : String) (response_time_seconds : Option ℚ) (now : ℤ) :
    applied_actions message response_time_seconds now ≠ [] := by
  unfold applied_actions
  split_ifs with h
  · simp
  · exact h

theorem analyze_fst_mem (m : String) :
    (AffectionCalculator.analyze_message_sentiment m).1 = "mention_other_girl" ∨
    (AffectionCalculator.analyze_message_sentiment m).1 = "compliment" ∨
    (AffectionCalculator.analyze_message_sentiment m).1 = "rude" ∨
    (AffectionCalculator.analyze_message_sentiment m).1 = "neutral" := by
  unfold AffectionCalculator.analyze_message_sentiment
  split_ifs <;> simp

theorem triggered_actions_mem (m : String) (rt : Option ℚ) (now : ℤ) :
    ∀ a ∈ triggered_actions m rt now,
      a = (AffectionCalculator.analyze_message_sentiment m).1 ∨
      a = "good_morning_night" ∨ a = "quick_response" := by
  intro a ha
  unfold triggered_actions at ha
  simp only [List.mem_append] at ha
  rcases ha with (h1 | h2) | h3
  · left
    revert h1
    split_ifs <;> simp_all
  · right; left
    revert h2
    split_ifs <;> simp_all
  · right; right
    revert h3
    cases rt with
    | none => simp
    | some r =>
      dsimp only
      split_ifs <;> simp_all

theorem decay_not_in_applied (m : String) (rt : Option ℚ) (now : ℤ) :
    "decay" ∉ applied_actions m rt now := by
  unfold applied_actions
  split_ifs with h
  · simp
  · intro hmem
    rcases triggered_actions_mem m rt now "decay" hmem with h1 | h1 | h1
    · rcases analyze_fst_mem m with h2 | h2 | h2 | h2 <;> rw [h2] at h1 <;> simp at h1
    · simp at h1
    · simp at h1

/-- C4 (amended): in `process_message` the decay check runs last, after all
message-triggered actions; `decay` is never among the action-phase updates,
and the trailing decay step never changes the store — every applied update
either refreshes `last_interaction` to `now` or the user is inside the sulk
window, which also blocks the decay update. -/
theorem claim_C4_decay_checked_last (sys : AffectionSystem) (user_id message : String)
    (response_time_seconds : Option ℚ) (now : ℤ) :
    (sys.process_message user_id message response_time_seconds now).sys =
      AffectionSystem.apply_actions (sys.get_state user_id now).2 user_id
        (applied_actions message response_time_seconds now) now ∧
    "decay" ∉ applied_actions message response_time_seconds now ∧
    (sys.process_message user_id message response_time_seconds now).trace =
      applied_actions message response_time_seconds now ++
        ((AffectionSystem.apply_actions (sys.get_state user_id now).2 user_id
            (applied_actions message response_time_seconds now) now).apply_decay
          user_id now).2 :=
  ⟨process_message_sys_eq sys user_id message response_time_seconds now,
   decay_not_in_applied message response_time_seconds now, rfl⟩

/-- The store holding one user created at time 0, for the decay-ordering
counterexample at time 259200 (three days later). -/
def c4_store : AffectionSystem := (AffectionSystem.empty.get_state "u" 0).2

theorem claim_C4_counterexample :
    days_between ((c4_store.get_state "u" 259200).1.last_interaction) 259200 = 3 ∧
    AffectionCalculator.DECAY_THRESHOLD_DAYS ≤ 3 ∧
    (c4_store.process_message "u" "thanks" none 259200).trace = ["compliment"] ∧
    "decay" ∉ (c4_store.process_message "u" "thanks" none 259200).trace := by
  have hacts : applied_actions "thanks" none 259200 = ["compliment"] := by decide
  have htrace : (c4_store.process_message "u" "thanks" none 259200).trace = ["compliment"] := by
    simp [AffectionSystem.process_message, AffectionSystem.apply_actions,
      AffectionSystem.apply_decay, AffectionSystem.update, AffectionSystem.get_state,
      AffectionSystem.empty, c4_store, hacts, update_state, update_core, fresh_state,
      inject_counters, AffectionCalculator.calculate_change,
      AffectionCalculator.POSITIVE_FACTORS, AffectionCalculator.NEGATIVE_FACTORS,
      AffectionCalculator.DECAY_THRESHOLD_DAYS, AffectionCalculator.DECAY_RATE,
      List.lookup, days_between]
    norm_num [min_def, max_def]
  refine ⟨by decide, by decide, htrace, ?_⟩
  rw [htrace]
  decide

theorem get_state_of_present {sys : AffectionSystem} {user_id : String} {st : AffectionState}
    (h : sys.states user_id = some st) (now : ℤ) :
    sys.get_state user_id now = (st, sys) := by
  unfold AffectionSystem.get_state
  rw [h]

/-- C3 (amended): the score returned by `process_message` is the stored
record's score after all triggered actions and the decay check have been
applied — the local `state` variable aliases the mutated record — not the
score captured before the updates. -/
theorem claim_C3_returns_post_update_score (sys : AffectionSystem) (user_id message : String)
    (response_time_seconds : Option ℚ) (now : ℤ) :
    ∃ st, (sys.process_message user_id message response_time_seconds now).sys.states user_id =
        some st ∧
      (sys.process_message user_id message response_time_seconds now).score = st.score := by
  rcases apply_actions_post user_id now (applied_actions message response_time_seconds now)
      (sys.get_state user_id now).2
      (applied_actions_ne_nil message response_time_seconds now) with ⟨st, hst, hpost⟩
  refine ⟨st, ?_, ?_⟩
  · rw [process_message_sys_eq]
    exact hst
  · have hsc : (sys.process_message user_id message response_time_seconds now).score =
        (((sys.process_message user_id message response_time_seconds now).sys).get_state
          user_id now).1.score := rfl
    rw [hsc, process_message_sys_eq, get_state_of_present hst now]

theorem claim_C3_counterexample :
    (AffectionSystem.empty.get_state "u" 0).1.score = 20 ∧
    (AffectionSystem.empty.process_message "u" "thanks" none 0).score = 22 ∧
    (22:ℚ) ≠ 20 := by
  refine ⟨by norm_num [AffectionSystem.get_state, AffectionSystem.empty, fresh_state], ?_,
    by norm_num⟩
  have hacts : applied_actions "thanks" none 0 = ["compliment"] := by decide
  simp [AffectionSystem.process_message, AffectionSystem.apply_actions,
    AffectionSystem.apply_decay, AffectionSystem.update, AffectionSystem.get_state,
    AffectionSystem.empty, hacts, update_state, update_core, fresh_state, inject_counters,
    AffectionCalculator.calculate_change, AffectionCalculator.POSITIVE_FACTORS,
    AffectionCalculator.NEGATIVE_FACTORS, AffectionCalculator.DECAY_THRESHOLD_DAYS,
    AffectionCalculator.DECAY_RATE, List.lookup, days_between]
  norm_num [min_def, max_def]

/-- `ConversationTurn` (short-term): `emotional_context` is a key/value
list, `id` a digest string. -/
structure ConversationTurn where
  id : String
  user_message : String
  bot_response : String
  timestamp : ℤ
  user_id : String
  emotional_context : List (String × String) := []
  topics : List String := []
deriving Repr, DecidableEq

/-- The turn id; stands in for `md5(f"{user_id}:{now}").hexdigest()[:16]`.
The claims depend only on the id being computed from user and time, not on
the digest function itself. -/
def turn_id (user_id : String) (now : ℤ) : String :=
  user_id ++ ":" ++ toString now

/-- Python slice `xs[-k:]`: for `k = 0` this is the whole list (`xs[0:]`),
otherwise the last `k` elements. -/
def py_slice_last {α : Type} (k : ℕ) (l : List α) : List α :=
  if k = 0 then l else l.drop (l.length - k)

/-- `ShortTermMemory`: the per-user `_conversations` dictionary plus the
capacity `max_turns`. -/
structure ShortTermMemory where
  max_turns : ℕ
  conversations : String → Option (List ConversationTurn)

/-- `ShortTermMemory(max_turns)` freshly constructed, no buffers. -/
def ShortTermMemory.new (max_turns : ℕ) : ShortTermMemory :=
  ⟨max_turns, fun _ => none⟩

/-- `ShortTermMemory.add_turn`: appends a turn to the user's buffer and
truncates via the Python slice `[-max_turns:]` when the buffer exceeds
`max_turns`. -/
def ShortTermMemory.add_turn (m : ShortTermMemory) (user_id user_message bot_response : String)
    (now : ℤ) : ShortTermMemory :=
  let buf := (m.conversations user_id).getD []
  let turn : ConversationTurn :=
    { id := turn_id user_id now, user_message := user_message, bot_response := bot_response,
      timestamp := now, user_id := user_id }
  let buf2 := buf ++ [turn]
  let buf3 := if buf2.length > m.max_turns then py_slice_last m.max_turns buf2 else buf2
  ⟨m.max_turns, fun u => if u = user_id then some buf3 else m.conversations u⟩

/-- `ShortTermMemory.get_recent_context`: `turns[-n_turns:] if turns else []`. -/
def ShortTermMemory.get_recent_context (m : ShortTermMemory) (user_id : String)
    (n_turns : ℕ) : List ConversationTurn :=
  let turns := (m.conversations user_id).getD []
  if turns = [] then [] else py_slice_last n_turns turns

/-- The turn record `add_turn` builds from `(user_message, bot_response, time)`. -/
def mk_turn (user_id : String) (x : String × String × ℤ) : ConversationTurn :=
  { id := turn_id user_id x.2.2, user_message := x.1, bot_response := x.2.1,
    timestamp := x.2.2, user_id := user_id }

/-- Folding `add_turn` over `(user_message, bot_response, time)` inputs for
one user. -/
def add_turns (m : ShortTermMemory) (user_id : String) (l : List (String × String × ℤ)) :
    ShortTermMemory :=
  l.foldl (fun m x => m.add_turn user_id x.1 x.2.1 x.2.2) m

theorem rtake_of_length_le {α : Type} {l : List α} {n : ℕ} (h : l.length ≤ n) :
    l.rtake n = l := by
  unfold List.rtake
  rw [Nat.sub_eq_zero_of_le h, List.drop_zero]

theorem py_slice_last_pos {α : Type} {k : ℕ} (h : 1 ≤ k) (l : List α) :
    py_slice_last k l = l.rtake k := by
  unfold py_slice_last List.rtake
  rw [if_neg (by omega)]

theorem rtake_rtake_append {α : Type} (N : ℕ) (a b : List α) :
    ((a.rtake N) ++ b).rtake N = (a ++ b).rtake N := by
  rw [List.rtake_eq_reverse_take_reverse, List.rtake_eq_reverse_take_reverse,
    List.rtake_eq_reverse_take_reverse]
  congr 1
  rw [List.reverse_append, List.reverse_append, List.reverse_reverse]
  rw [List.take_append_eq_append_take, List.take_append_eq_append_take, List.take_take,
    min_eq_left (Nat.sub_le _ _)]

/-- One `add_turn` call: the buffer becomes the last `max_turns` of the old
contents plus the new turn, provided the capacity is at least one. -/
theorem add_turn_buffer (m : ShortTermMemory) (user_id a b : String) (now : ℤ)
    (hN : 1 ≤ m.max_turns) :
    ((m.add_turn user_id a b now).conversations user_id).getD [] =
      ((m.conversations user_id).getD [] ++ [mk_turn user_id (a, b, now)]).rtake m.max_turns := by
  unfold ShortTermMemory.add_turn
  simp only [eq_self_iff_true, if_true, Option.getD_some]
  split_ifs with hgt
  · exact py_slice_last_pos hN _
  · exact (rtake_of_length_le (not_lt.mp hgt)).symm

theorem rtake_length_le {α : Type} (l : List α) (n : ℕ) : (l.rtake n).length ≤ n := by
  unfold List.rtake
  rw [List.length_drop]
  omega

/-- Buffer contents after a fold of `add_turn` calls: the last `N` of the
previous contents plus the new turns, provided the capacity `N` is at least
one (the Python `[-0:]` slice does not truncate) and the starting buffer is
within capacity. -/
theorem add_turns_buffer (user_id : String) (N : ℕ) (hN : 1 ≤ N) :
    ∀ (l : List (String × String × ℤ)) (m : ShortTermMemory),
      m.max_turns = N → ((m.conversations user_id).getD []).length ≤ N →
      ((add_turns m user_id l).conversations user_id).getD [] =
        ((m.conversations user_id).getD [] ++ l.map (mk_turn user_id)).rtake N := by
  intro l
  induction l with
  | nil =>
    intro m hmax hlen
    rw [List.map_nil, List.append_nil]
    exact (rtake_of_length_le hlen).symm
  | cons x xs ih =>
    intro m hmax hlen
    have hstep : add_turns m user_id (x :: xs) =
        add_turns (m.add_turn user_id x.1 x.2.1 x.2.2) user_id xs := rfl
    have hbuf3 : ((m.add_turn user_id x.1 x.2.1 x.2.2).conversations user_id).getD [] =
        ((m.conversations user_id).getD [] ++ [mk_turn user_id x]).rtake N := by
      rw [add_turn_buffer m user_id x.1 x.2.1 x.2.2 (by omega), hmax]
    have hmax3 : (m.add_turn user_id x.1 x.2.1 x.2.2).max_turns = N := hmax
    have hlen3 : (((m.add_turn user_id x.1 x.2.1 x.2.2).conversations user_id).getD []).length
        ≤ N := by
      rw [hbuf3]
      exact rtake_length_le _ _
    rw [hstep, ih _ hmax3 hlen3, hbuf3, rtake_rtake_append]
    simp

/-- C8 (amended): for every capacity `N ≥ 1`, calling `add_turn` `N+1` times
leaves exactly the last `N` turns, the oldest evicted; and for `n ≥ 1`
`get_recent_context` returns a suffix of the stored buffer (the last
`min n stored` turns in chronological order).  The restriction to positive
`N` and `n` is forced by Python's `[-0:]` slice, which does not truncate. -/
theorem claim_C8_ring_buffer :
    (∀ (N : ℕ) (user_id : String) (l : List (String × String × ℤ)),
       1 ≤ N → l.length = N + 1 →
       ((add_turns (ShortTermMemory.new N) user_id l).conversations user_id).getD [] =
         (l.map (mk_turn user_id)).drop 1) ∧
    (∀ (m : ShortTermMemory) (user_id : String) (n : ℕ), 1 ≤ n →
       m.get_recent_context user_id n <:+ (m.conversations user_id).getD [] ∧
       (m.get_recent_context user_id n).length =
         min n ((m.conversations user_id).getD []).length) := by
  constructor
  · intro N user_id l hN hlen
    rw [add_turns_buffer user_id N hN l (ShortTermMemory.new N) rfl (by simp [ShortTermMemory.new])]
    simp only [ShortTermMemory.new, Option.getD_none, List.nil_append]
    unfold List.rtake
    rw [List.length_map, hlen]
    congr 1
    omega
  · intro m user_id n hn
    unfold ShortTermMemory.get_recent_context
    by_cases hturns : (m.conversations user_id).getD [] = []
    · rw [if_pos hturns, hturns]
      exact ⟨List.nil_suffix, by simp⟩
    · rw [if_neg hturns, py_slice_last_pos hn]
      unfold List.rtake
      refine ⟨List.drop_suffix _ _, ?_⟩
      rw [List.length_drop]
      omega

theorem claim_C8_counterexample :
    ((((ShortTermMemory.new 0).add_turn "u" "a" "b" 0).conversations "u").getD []).length = 1 ∧
    (1:ℕ) ≠ 0 ∧
    (((ShortTermMemory.new 0).add_turn "u" "a" "b" 0).add_turn "u" "c" "d" 1).get_recent_context
        "u" 0 ≠ [] := by
  refine ⟨by decide, by decide, by decide⟩

theorem claim_C8_witness :
    (1:ℕ) ≤ 2 ∧
    ([("a", "b", (0:ℤ)), ("c", "d", 1), ("e", "f", 2)] :
      List (String × String × ℤ)).length = 2 + 1 ∧
    ((add_turns (ShortTermMemory.new 2) "u"
        [("a", "b", 0), ("c", "d", 1), ("e", "f", 2)]).conversations "u").getD [] =
      (([("a", "b", (0:ℤ)), ("c", "d", 1), ("e", "f", 2)].map (mk_turn "u"))).drop 1 ∧
    (1:ℕ) ≤ 1 ∧
    (ShortTermMemory.new 2).get_recent_context "u" 1 <:+
      (((ShortTermMemory.new 2).conversations "u").getD []) :=
  ⟨by decide, by decide,
   claim_C8_ring_buffer.1 2 "u" [("a", "b", 0), ("c", "d", 1), ("e", "f", 2)]
     (by decide) (by decide),
   by decide,
   (claim_C8_ring_buffer.2 (ShortTermMemory.new 2) "u" 1 (by decide)).1⟩

/-- `LearnedInsight` dataclass (timestamps as `ℤ`). -/
structure LearnedInsight where
  id : String
  original_knowledge_ids : List String
  insight_type : String
  content : String
  confidence : ℚ
  created_at : ℤ := 0
  verified : Bool := false
  application_count : ℕ := 0
deriving Repr, DecidableEq

/-- The learned-knowledge document maintained by `KnowledgeIntegrator`:
four named lists; an absent key is modelled as the empty list (the source
uses `learned_data.get(key, [])`). -/
structure LearnedKnowledge where
  user_preferences : List String := []
  user_facts : List String := []
  user_patterns : List String := []
  emotional_rules : List String := []
deriving Repr, DecidableEq

/-- The per-type merge loop of `integrate_insights`: append each content not
already present verbatim. -/
def merge_contents (existing incoming : List String) : List String :=
  incoming.foldl (fun acc c => if c ∈ acc then acc else acc ++ [c]) existing

/-- The contents of the insights of one type, in order.  The source groups
with `_group_by_type` (which preserves the original order within each group)
and then iterates one group; that equals filtering by type. -/
def contents_of_type (insights : List LearnedInsight) (t : String) : List String :=
  (insights.filter (fun i => i.insight_type == t)).map (fun i => i.content)

/-- `KnowledgeIntegrator.integrate_insights` acting on the learned-knowledge
document (insights of any other type are dropped, as in the source). -/
def integrate_insights (learned : LearnedKnowledge) (insights : List LearnedInsight) :
    LearnedKnowledge :=
  { user_preferences :=
      merge_contents learned.user_preferences (contents_of_type insights "preference"),
    user_facts := merge_contents learned.user_facts (contents_of_type insights "fact"),
    user_patterns := merge_contents learned.user_patterns (contents_of_type insights "pattern"),
    emotional_rules :=
      merge_contents learned.emotional_rules (contents_of_type insights "emotion_rule") }

/-- The document list corresponding to an insight type (empty for a type the
integrator does not recognise). -/
def type_bucket (learned : LearnedKnowledge) (t : String) : List String :=
  if t = "preference" then learned.user_preferences
  else if t = "fact" then learned.user_facts
  else if t = "pattern" then learned.user_patterns
  else if t = "emotion_rule" then learned.emotional_rules
  else []

theorem merge_contents_nil (existing : List String) : merge_contents existing [] = existing := rfl

theorem merge_contents_cons (existing : List String) (x : String) (xs : List String) :
    merge_contents existing (x :: xs) =
      merge_contents (if x ∈ existing then existing else existing ++ [x]) xs := rfl

theorem merge_single_of_mem {existing : List String} {c : String} (h : c ∈ existing) :
    merge_contents existing [c] = existing := by
  rw [merge_contents_cons, if_pos h, merge_contents_nil]

theorem mem_merge_of_mem {a : String} (l : List String) {acc : List String} (h : a ∈ acc) :
    a ∈ merge_contents acc l := by
  induction l generalizing acc with
  | nil => exact h
  | cons x xs ih =>
    rw [merge_contents_cons]
    apply ih
    split_ifs with hx
    · exact h
    · exact List.mem_append_left _ h

theorem mem_merge_incoming {c : String} (l : List String) (acc : List String) (h : c ∈ l) :
    c ∈ merge_contents acc l := by
  induction l generalizing acc with
  | nil => cases h
  | cons x xs ih =>
    rw [merge_contents_cons]
    rcases List.mem_cons.mp h with hcx | hcxs
    · subst hcx
      apply mem_merge_of_mem
      split_ifs with hx
      · exact hx
      · exact List.mem_append_right _ (by simp)
    · exact ih _ hcxs

theorem merge_of_all_mem (l : List String) : ∀ acc, (∀ c ∈ l, c ∈ acc) →
    merge_contents acc l = acc := by
  induction l with
  | nil => exact fun acc _ => rfl
  | cons x xs ih =>
    intro acc h
    rw [merge_contents_cons, if_pos (h x (by simp))]
    exact ih acc (fun c hc => h c (by simp [hc]))

theorem merge_idem (existing l : List String) :
    merge_contents (merge_contents existing l) l = merge_contents existing l :=
  merge_of_all_mem l _ (fun c hc => mem_merge_incoming l existing hc)

/-- C9: `integrate_insights` deduplicates by exact string match per type
bucket: an insight whose content is already present verbatim in the
corresponding list leaves the document unchanged, and re-integrating the
same insight list a second time is idempotent. -/
theorem claim_C9_integrate_dedupe_idempotent :
    (∀ (learned : LearnedKnowledge) (i : LearnedInsight),
       i.content ∈ type_bucket learned i.insight_type →
       integrate_insights learned [i] = learned) ∧
    (∀ (learned : LearnedKnowledge) (insights : List LearnedInsight),
       integrate_insights (integrate_insights learned insights) insights =
         integrate_insights learned insights) := by
  constructor
  · intro learned i hmem
    unfold type_bucket at hmem
    unfold integrate_insights contents_of_type
    by_cases h1 : i.insight_type = "preference"
    · rw [if_pos h1] at hmem
      simp [h1, List.filter, merge_contents_nil, merge_single_of_mem hmem]
    · rw [if_neg h1] at hmem
      by_cases h2 : i.insight_type = "fact"
      · rw [if_pos h2] at hmem
        simp [h2, List.filter, merge_contents_nil, merge_single_of_mem hmem]
      · rw [if_neg h2] at hmem
        by_cases h3 : i.insight_type = "pattern"
        · rw [if_pos h3] at hmem
          simp [h3, List.filter, merge_contents_nil, merge_single_of_mem hmem]
        · rw [if_neg h3] at hmem
          by_cases h4 : i.insight_type = "emotion_rule"
          · rw [if_pos h4] at hmem
            simp [h4, List.filter, merge_contents_nil, merge_single_of_mem hmem]
          · rw [if_neg h4] at hmem
            cases hmem
  · intro learned insights
    unfold integrate_insights
    dsimp only
    rw [merge_idem, merge_idem, merge_idem, merge_idem]

/-- A concrete learned-knowledge document and an insight whose content is
already present, used as witness input. -/
def c9_doc : LearnedKnowledge := { user_facts := ["私は東京から来た"] }

def c9_insight : LearnedInsight :=
  { id := "i1", original_knowledge_ids := [], insight_type := "fact",
    content := "私は東京から来た", confidence := 0.8 }

theorem claim_C9_witness :
    c9_insight.content ∈ type_bucket c9_doc c9_insight.insight_type ∧
    integrate_insights c9_doc [c9_insight] = c9_doc ∧
    integrate_insights (integrate_insights c9_doc [c9_insight]) [c9_insight] =
      integrate_insights c9_doc [c9_insight] :=
  ⟨by decide,
   claim_C9_integrate_dedupe_idempotent.1 c9_doc c9_insight (by decide),
   claim_C9_integrate_dedupe_idempotent.2 c9_doc [c9_insight]⟩
